import Mathlib

/-
Verification development for the benchmark execution engine in
`performance_benchmark.py` (repository KademEray/Bachelorarbeit).

The Python source is shallowly embedded below: pure computations become Lean
functions over exact rationals (ℚ) and integers; Python `float('nan')` is the
`PyFloat.nan` sentinel; code that can raise an exception returns `Except` or
`Option`; the external world (cgroup files, `docker inspect`, the databases)
is threaded through explicit environment records of read functions, where
`none` models a raised exception of the underlying call.
-/

namespace Bench

/-- A Python float value as logged by the benchmark: either the `math.nan`
sentinel or an exact numeric value (modelled with ℚ). -/
inductive PyFloat where
  | nan : PyFloat
  | val : ℚ → PyFloat
deriving DecidableEq

/-- Query complexity tiers, from the `Complexity` enum of the source. -/
inductive Complexity where
  | SIMPLE
  | MEDIUM
  | COMPLEX
  | VERY_COMPLEX
  | CREATE
  | UPDATE
  | DELETE
deriving DecidableEq

/-- The `.value` string of each `Complexity` member, written into the CSV. -/
def Complexity.value : Complexity → String
  | .SIMPLE => "simple"
  | .MEDIUM => "medium"
  | .COMPLEX => "complex"
  | .VERY_COMPLEX => "very_complex"
  | .CREATE => "create"
  | .UPDATE => "update"
  | .DELETE => "delete"

/-- Environment of `_read_cgroup_stats`: `cgroupVisible` models
`(CG_PATH / cid).exists()`; `hostRead rel` models `(cdir / rel).read_text()`
(`none` = raised OSError); `execRead path` models
`docker exec cid cat path` (`none` = raised CalledProcessError). -/
structure ContainerFS where
  cgroupVisible : Bool
  hostRead : String → Option String
  execRead : String → Option String

/-- The inner `_read_file` helper of `_read_cgroup_stats`: when the cgroup
directory is not visible from the host, fall back to reading
`/sys/fs/cgroup/<rel>` inside the container via docker exec. -/
def read_file (fs : ContainerFS) (rel : String) : Option String :=
  if fs.cgroupVisible then fs.hostRead rel
  else fs.execRead ("/sys/fs/cgroup/" ++ rel)

/-- Python `str.startswith`, character for character. -/
def listStartsWith : List Char → List Char → Bool
  | _, [] => true
  | [], _ :: _ => false
  | a :: as, b :: bs => a = b && listStartsWith as bs

/-- Split a character list at every occurrence of the separator `c` —
Python `str.splitlines()` over text whose only line terminator is `'\n'`
(plus a final empty piece when the text ends in a newline, which the
usage_usec scan below never matches). -/
def splitChar (c : Char) : List Char → List (List Char)
  | [] => [[]]
  | a :: as =>
    let r := splitChar c as
    if a = c then [] :: r
    else
      match r with
      | [] => [[a]]
      | g :: gs => (a :: g) :: gs

/-- Python `str.split()` with no argument: split on whitespace runs,
dropping empty pieces; `acc` is the current in-progress word, reversed. -/
def splitWsAux : List Char → List Char → List (List Char)
  | [], acc => if acc = [] then [] else [acc.reverse]
  | a :: as, acc =>
    if a.isWhitespace then
      (if acc = [] then splitWsAux as [] else acc.reverse :: splitWsAux as [])
    else splitWsAux as (a :: acc)

/-- Python `str.strip()`. -/
def pyStrip (l : List Char) : List Char :=
  ((l.dropWhile Char.isWhitespace).reverse.dropWhile Char.isWhitespace).reverse

/-- Accumulate the value of a digit string; any non-digit fails. -/
def parseNatAux : List Char → ℕ → Option ℕ
  | [], acc => some acc
  | c :: cs, acc => if c.isDigit then parseNatAux cs (acc * 10 + (c.toNat - 48)) else none

/-- Python `int(str)`: strip whitespace, optional sign, decimal digits;
`none` models the raised ValueError. -/
def pyInt? (l : List Char) : Option Int :=
  match pyStrip l with
  | [] => none
  | '-' :: rest => if rest = [] then none else (parseNatAux rest 0).map (fun n => -(n : Int))
  | '+' :: rest => if rest = [] then none else (parseNatAux rest 0).map (fun n => (n : Int))
  | l2 => (parseNatAux l2 0).map (fun n => (n : Int))

/-- The `for ln in ...: if ln.startswith("usage_usec"): cpu_usec = int(ln.split()[1]); break`
loop of `_read_cgroup_stats`. If no line matches, `cpu_usec` keeps its initial
value 0; if a matching line is malformed, `int(...)`/indexing raises, which is
the `.error` branch. -/
def parseCpuUsec : List (List Char) → Except String Int
  | [] => Except.ok 0
  | ln :: rest =>
    if listStartsWith ln "usage_usec".data then
      match (splitWsAux ln []).get? 1 with
      | none => Except.error "usage_usec line has no value field"
      | some tok =>
        match pyInt? tok with
        | none => Except.error "usage_usec value is not an int"
        | some v => Except.ok v
    else parseCpuUsec rest

/-- The body of `_read_cgroup_stats`: read and parse `cpu.stat` and
`memory.current`, and return the dict literal
`{"cpu_usec": cpu_usec, "mem_now": mem_now}` (as an association list, so the
key shape of the snapshot is part of the result). Any failed read or parse
raises, i.e. produces `.error` — the function contains no exception handler. -/
def read_cgroup_stats (fs : ContainerFS) : Except String (List (String × Int)) :=
  match read_file fs "cpu.stat" with
  | none => Except.error "cpu.stat unreadable"
  | some cpuTxt =>
    match parseCpuUsec (splitChar '\n' cpuTxt.data) with
    | Except.error e => Except.error e
    | Except.ok cpu =>
      match read_file fs "memory.current" with
      | none => Except.error "memory.current unreadable"
      | some memTxt =>
        match pyInt? memTxt.data with
        | none => Except.error "memory.current is not an int"
        | some mem => Except.ok [("cpu_usec", cpu), ("mem_now", mem)]

/-- Lookup `d[k]` on a Python dict modelled as an association list
(`none` = KeyError). -/
def dictGet? (d : List (String × Int)) (k : String) : Option Int :=
  (d.find? (fun kv => kv.1 = k)).map Prod.snd

/-- The `_delta` helper: `{k: after[k] - before[k] for k in before}` — plain
field-wise subtraction over the keys of `before`, with no clamping of any
kind; `none` models the KeyError raised when a key of `before` is missing
from `after`. -/
def delta : List (String × Int) → List (String × Int) → Option (List (String × Int))
  | [], _ => some []
  | kv :: rest, after =>
    match dictGet? after kv.1, delta rest after with
    | some v, some ds => some ((kv.1, v - kv.2) :: ds)
    | _, _ => none

/-- A volume mount entry as returned by `docker container inspect`
(`.Mounts`): only the `Type` and `Name` fields are consulted. -/
structure Mount where
  ty : String
  name : String

/-- Environment of `get_docker_disk_mb` and `_volume_usage`: each field is a
`docker` CLI read, with `none` modelling a raised/failed subprocess call. -/
structure DockerEnv where
  rootFsSize : String → Option Int
  mounts : String → Option (List Mount)
  volSize : String → Option Int

/-- The `_volume_usage` helper: bytes used by one docker volume, falling back
to 0 on any error. -/
def volume_usage (env : DockerEnv) (name : String) : Int :=
  (env.volSize name).getD 0

/-- The `get_docker_disk_mb` function: `SizeRootFs` plus the sizes of all
volume mounts, in MB; each source falls back to 0 bytes on failure, and a
non-positive total is reported as `math.nan`. -/
def get_docker_disk_mb (env : DockerEnv) (container : String) : PyFloat :=
  let root : Int := (env.rootFsSize container).getD 0
  let vol : Int :=
    match env.mounts container with
    | none => 0
    | some ms =>
      ((ms.filter (fun m => m.ty = "volume")).map (fun m => volume_usage env m.name)).foldl
        (fun a b => a + b) 0
  let total : ℚ := ((root + vol : Int) : ℚ) / 1024 ^ 2
  if 0 < total then PyFloat.val total else PyFloat.nan

/-- Result shape of `_serialize_pg`: a dict `{"rows": ..., "first": ...}` for
statements with a cursor description (SELECT-shaped), or `{"rowcount": ...}`
for data-changing statements. `ρ` is the opaque type of one fetched row. -/
inductive PgResult (ρ : Type) where
  | selectRes (rows : ℕ) (first : Option ρ)
  | dmlRes (rowcount : Int)
deriving DecidableEq

/-- The `_serialize_pg` function: `descr` models `cur.description` being
non-None, `rows` the fetched rows, `rowcount` the cursor's `rowcount`. -/
def serialize_pg (ρ : Type) (descr : Bool) (rows : List ρ) (rowcount : Int) : PgResult ρ :=
  if descr then PgResult.selectRes rows.length rows.head?
  else PgResult.dmlRes rowcount

/-- Key set of a serialized PostgreSQL outcome dict. -/
def pgResultKeys {ρ : Type} : PgResult ρ → List String
  | PgResult.selectRes _ _ => ["rows", "first"]
  | PgResult.dmlRes _ => ["rowcount"]

/-- Result shape of `_run_neo_query`: always the dict
`{"rows": rows, "first": first}`. -/
structure NeoRes (ρ : Type) where
  rows : ℕ
  first : Option ρ
deriving DecidableEq

/-- The streaming loop of `_run_neo_query`: `rows += 1` per record, `first`
takes the first record's data. -/
def neoLoop (ρ : Type) : List ρ → ℕ → Option ρ → ℕ × Option ρ
  | [], rows, first => (rows, first)
  | record :: rest, rows, first =>
    neoLoop ρ rest (rows + 1)
      (match first with
       | none => some record
       | some f => some f)

/-- The `_run_neo_query` function restricted to its result value: it streams
the records of the session run and returns `{"rows": rows, "first": first}` —
for every statement, read- or mutation-shaped alike.  (The source also
defines `_serialize_neo`, see below, but `_run_neo_query` never calls it.) -/
def run_neo_query (ρ : Type) (records : List ρ) : NeoRes ρ :=
  let p := neoLoop ρ records 0 none
  NeoRes.mk p.1 p.2

/-- Key set of a `_run_neo_query` outcome dict. -/
def neoResKeys (ρ : Type) : NeoRes ρ → List String :=
  fun _ => ["rows", "first"]

/-- The `_serialize_neo` helper as written in the source: rows/first when
records exist, otherwise the counter dict
`{"nodes_created", "nodes_deleted", "properties_set"}`.  Dead code on the
benchmark path: `_run_neo_query` builds its result itself and never calls
this function. -/
def serialize_neo_keys (ρ : Type) (records : List ρ) : List String :=
  if records.length ≠ 0 then ["rows", "first"]
  else ["nodes_created", "nodes_deleted", "properties_set"]

/-- The `CONCURRENCY_LEVELS` constant of the source. -/
def CONCURRENCY_LEVELS : List ℕ := [1, 3, 5, 10]

/-- The `maxconn` bound the source passes to `ThreadedConnectionPool` in
`_pg_benchmark` (`max(CONCURRENCY_LEVELS)`), modelled with Python `max`
over the non-empty fixed list.  Because the pool is sized from the very
list that is iterated, no requested level can exceed the pool capacity,
and the source contains no capacity check of its own. -/
def PG_POOL_maxconn : ℕ := CONCURRENCY_LEVELS.foldl max 0

/-- The `CSV_HEADER` constant of the source, written as the first CSV row. -/
def CSV_HEADER : List String :=
  ["db", "mode", "phase", "concurrency", "query_no", "repeat", "complexity",
   "duration_ms", "qps", "avg_cpu", "avg_mem",
   "disk_mb", "statement", "result"]

/-- The column list the specification document claims for the record schema
(§6 of the spec); kept for comparison with the source's `CSV_HEADER`. -/
def CSV_HEADER_claim : List String :=
  ["backend", "variant", "phase", "concurrency", "statement_index",
   "repetition", "complexity", "duration_ms", "per_request_ms", "qps",
   "avg_cpu_pct", "avg_mem_mb", "disk_mb", "statement_text", "result_json"]

/-- A backend query failure (psycopg2 / neo4j driver exception) as re-raised
by `_run_pg_query` / `_run_neo_query`. -/
structure QueryError where
  msg : String
deriving DecidableEq

/-- The two-key cgroup snapshot dict of `_read_cgroup_stats`, in structural
form for use by the benchmark loop (the loop indexes the dict only at
`"cpu_usec"` and `"mem_now"`). -/
structure CgroupStats where
  cpu_usec : Int
  mem_now : Int
deriving DecidableEq

/-- The `result` column of one CSV row: the fixed `{"note": "warmup"}` dict
for warm-up rows, or the serialized first steady result (opaque type ρ). -/
inductive LogRes (ρ : Type) where
  | warmupNote : LogRes ρ
  | res : ρ → LogRes ρ
deriving DecidableEq

/-- One emitted CSV record, field for field the arguments `_log_csv` writes
(`rep` is the `repeat` column). -/
structure Row (ρ : Type) where
  db : String
  mode : String
  phase : String
  conc : ℕ
  query_no : ℕ
  rep : ℕ
  complexity : Complexity
  duration_ms : ℚ
  qps : PyFloat
  avg_cpu : PyFloat
  avg_mem : PyFloat
  disk_mb : PyFloat
  statement : String
  result : LogRes ρ
deriving DecidableEq

/-- One CSV cell (the source formats every cell to text; the payload kinds
are kept apart here so each column's value stays typed). -/
inductive Cell (ρ : Type) where
  | str : String → Cell ρ
  | nat : ℕ → Cell ρ
  | rat : ℚ → Cell ρ
  | flt : PyFloat → Cell ρ
  | res : LogRes ρ → Cell ρ
deriving DecidableEq

/-- The cell list `_log_csv` writes for one record, in the column order of
the source's `row = [db, mode, phase, conc, idx, repeat, comp.value, dur,
qps, avg_cpu, avg_mem, disk_mb, stmt, res]`. -/
def rowCells {ρ : Type} (r : Row ρ) : List (Cell ρ) :=
  [Cell.str r.db, Cell.str r.mode, Cell.str r.phase, Cell.nat r.conc,
   Cell.nat r.query_no, Cell.nat r.rep, Cell.str r.complexity.value,
   Cell.rat r.duration_ms, Cell.flt r.qps, Cell.flt r.avg_cpu,
   Cell.flt r.avg_mem, Cell.flt r.disk_mb, Cell.str r.statement,
   Cell.res r.result]

/-- The `avg_cpu` computation of the steady loop:
`cpu_sec = d["cpu_usec"] / 1_000_000; avg_cpu = (cpu_sec / (duration_ms / 1000 * CPU_CORES)) * 100`. -/
def avgCpuPct (cores : ℕ) (dcpuUsec : Int) (durationMs : ℚ) : ℚ :=
  (dcpuUsec : ℚ) / 1000000 / (durationMs / 1000 * (cores : ℚ)) * 100

/-- The hypothetical per-container core count named by the specification
("CPU core count ... resolved once per container ... via an extra
in-container command"); the source resolves no such value — its `CPU_CORES`
is `multiprocessing.cpu_count()` of the host, read once at module import.
A 2-core container on a 4-core host instantiates the mismatch. -/
def containerCores_claim : ℕ := 2

/-- The `avg_mem` computation of the steady loop:
`(start_stats["mem_now"] + end_stats["mem_now"]) / 2 / 1024**2`. -/
def avgMemMb (m0 m1 : Int) : ℚ :=
  ((m0 : ℚ) + (m1 : ℚ)) / 2 / 1024 ^ 2

/-- The `qps` computation of the steady loop: `conc * 1000 / duration_ms`. -/
def qpsOf (conc : ℕ) (durationMs : ℚ) : ℚ :=
  (conc : ℚ) * 1000 / durationMs

/-- All run-time inputs of `_pg_benchmark` (and of the structurally identical
`_neo_benchmark`): the statement iterator `q_iter`, the CLI-set globals
`WARMUP_RUNS` and `REPETITIONS`, the module constant `CPU_CORES` (host core
count), and per-(concurrency, query_no, repetition) oracles for the measured
quantities and for whether the batch's `futs[0].result()` re-raised a query
error.  `ρ` is the opaque serialized first result. -/
structure BenchCfg (ρ : Type) where
  db : String
  mode : String
  catalog : List (Complexity × String)
  warmupRuns : ℕ
  repetitions : ℕ
  cpuCores : ℕ
  warmMs : ℕ → ℕ → ℕ → ℚ
  warmErr : ℕ → ℕ → ℕ → Option QueryError
  diskW : ℕ → ℕ → ℕ → PyFloat
  stats0 : ℕ → ℕ → ℕ → CgroupStats
  stats1 : ℕ → ℕ → ℕ → CgroupStats
  steadyMs : ℕ → ℕ → ℕ → ℚ
  steadyErr : ℕ → ℕ → ℕ → Option QueryError
  steadyVal : ℕ → ℕ → ℕ → ρ
  diskS : ℕ → ℕ → ℕ → PyFloat

/-- The `stmt.replace("\n", " ")` of `_log_csv` (a single-character pattern,
so a character-wise map). -/
def replaceNl (s : String) : String :=
  String.mk (s.data.map (fun c => if c = '\n' then ' ' else c))

/-- The record logged for warm-up repetition `w`: duration measured, the
resource metrics written as NaN, `res={"note": "warmup"}`. -/
def warmRow {ρ : Type} (cfg : BenchCfg ρ) (conc idx w : ℕ)
    (comp : Complexity) (stmt : String) : Row ρ :=
  { db := cfg.db, mode := cfg.mode, phase := "warmup", conc := conc,
    query_no := idx, rep := w, complexity := comp,
    duration_ms := cfg.warmMs conc idx w,
    qps := PyFloat.nan, avg_cpu := PyFloat.nan, avg_mem := PyFloat.nan,
    disk_mb := cfg.diskW conc idx w,
    statement := replaceNl stmt, result := LogRes.warmupNote }

/-- The record logged for steady repetition `k`: duration, qps, average CPU
percentage from the cgroup delta and `CPU_CORES`, average memory from the
two snapshots, disk usage, and the first task's serialized result. -/
def steadyRowOf {ρ : Type} (cfg : BenchCfg ρ) (conc idx k : ℕ)
    (comp : Complexity) (stmt : String) : Row ρ :=
  let s0 := cfg.stats0 conc idx k
  let s1 := cfg.stats1 conc idx k
  let dur := cfg.steadyMs conc idx k
  { db := cfg.db, mode := cfg.mode, phase := "steady", conc := conc,
    query_no := idx, rep := k, complexity := comp, duration_ms := dur,
    qps := PyFloat.val (qpsOf conc dur),
    avg_cpu := PyFloat.val (avgCpuPct cfg.cpuCores (s1.cpu_usec - s0.cpu_usec) dur),
    avg_mem := PyFloat.val (avgMemMb s0.mem_now s1.mem_now),
    disk_mb := cfg.diskS conc idx k,
    statement := replaceNl stmt, result := LogRes.res (cfg.steadyVal conc idx k) }

/-- Run a loop body over a list of loop indices, collecting emitted records,
aborting at the first uncaught exception — there is no `try`/`except` in the
benchmark loops, so an exception stops the iteration and carries outward. -/
def runAbort {α β : Type} (f : α → List β × Option QueryError) :
    List α → List β × Option QueryError
  | [] => ([], none)
  | a :: as =>
    match f a with
    | (rs, some e) => (rs, some e)
    | (rs, none) =>
      match runAbort f as with
      | (rs2, e2) => (rs ++ rs2, e2)

/-- Python `range(1, n + 1)` — the 1-based repetition counters. -/
def range1 (n : ℕ) : List ℕ := List.range' 1 n

/-- Python `enumerate(xs, k)` as used for `q_iter` (`k = 1`). -/
def enumFrom {α : Type} : ℕ → List α → List (ℕ × α)
  | _, [] => []
  | k, a :: as => (k, a) :: enumFrom (k + 1) as

/-- One warm-up iteration: `_run_and_time(_warmup_parallel, ...)` either
re-raises a worker error (nothing logged, exception propagates) or logs one
warm-up record. -/
def warmStep {ρ : Type} (cfg : BenchCfg ρ) (conc idx : ℕ)
    (comp : Complexity) (stmt : String) (w : ℕ) : List (Row ρ) × Option QueryError :=
  match cfg.warmErr conc idx w with
  | some e => ([], some e)
  | none => ([warmRow cfg conc idx w comp stmt], none)

/-- The `if WARMUP_RUNS > 0: for wrep in range(1, WARMUP_RUNS + 1)` block. -/
def runWarmups {ρ : Type} (cfg : BenchCfg ρ) (conc idx : ℕ)
    (comp : Complexity) (stmt : String) : List (Row ρ) × Option QueryError :=
  if 0 < cfg.warmupRuns then
    runAbort (warmStep cfg conc idx comp stmt) (range1 cfg.warmupRuns)
  else ([], none)

/-- One steady repetition: sample, run the batch — `futs[0].result()` either
re-raises the worker's query error (nothing logged, exception propagates) or
yields the first result — sample again, derive metrics, log one record. -/
def steadyStep {ρ : Type} (cfg : BenchCfg ρ) (conc idx : ℕ)
    (comp : Complexity) (stmt : String) (k : ℕ) : List (Row ρ) × Option QueryError :=
  match cfg.steadyErr conc idx k with
  | some e => ([], some e)
  | none => ([steadyRowOf cfg conc idx k comp stmt], none)

/-- The `for rep in range(1, REPETITIONS + 1)` steady loop. -/
def runSteady {ρ : Type} (cfg : BenchCfg ρ) (conc idx : ℕ)
    (comp : Complexity) (stmt : String) : List (Row ρ) × Option QueryError :=
  runAbort (steadyStep cfg conc idx comp stmt) (range1 cfg.repetitions)

/-- The body of `for idx, (comp, query) in enumerate(pbar, 1)`: warm-up block
then steady block, each aborting the statement (and, uncaught, the whole
run) on an exception. -/
def runStmt {ρ : Type} (cfg : BenchCfg ρ) (conc : ℕ)
    (p : ℕ × Complexity × String) : List (Row ρ) × Option QueryError :=
  match runWarmups cfg conc p.1 p.2.1 p.2.2 with
  | (rs, some e) => (rs, some e)
  | (rs, none) =>
    match runSteady cfg conc p.1 p.2.1 p.2.2 with
    | (rs2, e2) => (rs ++ rs2, e2)

/-- One concurrency level: iterate `q_iter` in catalog order. -/
def runLevel {ρ : Type} (cfg : BenchCfg ρ) (conc : ℕ) : List (Row ρ) × Option QueryError :=
  runAbort (runStmt cfg conc) (enumFrom 1 cfg.catalog)

/-- The record stream of `_pg_benchmark` (and of the structurally identical
`_neo_benchmark`): `for conc in CONCURRENCY_LEVELS` outermost, then
statements, then repetitions; the second component is the first uncaught
exception, which aborts everything after it. -/
def pgRun {ρ : Type} (cfg : BenchCfg ρ) : List (Row ρ) × Option QueryError :=
  runAbort (runLevel cfg) CONCURRENCY_LEVELS

/-- The record list of an exception-free run, in emission order. -/
def stmtRows {ρ : Type} (cfg : BenchCfg ρ) (conc idx : ℕ)
    (comp : Complexity) (stmt : String) : List (Row ρ) :=
  (range1 cfg.warmupRuns).map (fun w => warmRow cfg conc idx w comp stmt)
    ++ (range1 cfg.repetitions).map (fun k => steadyRowOf cfg conc idx k comp stmt)

/-- Records of one concurrency level of an exception-free run. -/
def levelRows {ρ : Type} (cfg : BenchCfg ρ) (conc : ℕ) : List (Row ρ) :=
  (enumFrom 1 cfg.catalog).flatMap (fun p => stmtRows cfg conc p.1 p.2.1 p.2.2)

/-- Full record stream of an exception-free run. -/
def fullRows {ρ : Type} (cfg : BenchCfg ρ) : List (Row ρ) :=
  CONCURRENCY_LEVELS.flatMap (levelRows cfg)

/-- No worker task of the run raises: every warm-up burst and every steady
batch returns normally. -/
def NoFail {ρ : Type} (cfg : BenchCfg ρ) : Prop :=
  (∀ c i w, cfg.warmErr c i w = none) ∧ (∀ c i k, cfg.steadyErr c i k = none)

/-- A concrete exception-free benchmark configuration: two catalog
statements, one warm-up, two steady repetitions, a 4-core host, and constant
measurement oracles (1 s batches, 2 s of CPU delta, 2 MiB resident). -/
def cfgOk : BenchCfg ℕ :=
  { db := "postgres", mode := "normal",
    catalog := [(Complexity.SIMPLE, "SELECT 1;"), (Complexity.DELETE, "DELETE FROM t;")],
    warmupRuns := 1, repetitions := 2, cpuCores := 4,
    warmMs := fun _ _ _ => 5,
    warmErr := fun _ _ _ => none,
    diskW := fun _ _ _ => PyFloat.val 7,
    stats0 := fun _ _ _ => { cpu_usec := 1000000, mem_now := 2097152 },
    stats1 := fun _ _ _ => { cpu_usec := 3000000, mem_now := 2097152 },
    steadyMs := fun _ _ _ => 1000,
    steadyErr := fun _ _ _ => none,
    steadyVal := fun _ _ _ => 0,
    diskS := fun _ _ _ => PyFloat.val 7 }

/-- The configuration `cfgOk` with no warm-ups and a query error raised in
the very first steady repetition of the first statement at the first
concurrency level. -/
def cfgFail : BenchCfg ℕ :=
  { cfgOk with
    warmupRuns := 0,
    steadyErr := fun c i k =>
      if c = 1 ∧ i = 1 ∧ k = 1 then some { msg := "relation missing" } else none }

/-- A configuration whose single steady repetition sees exactly 1 s of CPU
delta during a 1000 ms batch on the 4-core host. -/
def cfgC6 : BenchCfg ℕ :=
  { cfgOk with
    catalog := [(Complexity.SIMPLE, "SELECT 1;")],
    warmupRuns := 0, repetitions := 1,
    stats0 := fun _ _ _ => { cpu_usec := 0, mem_now := 0 },
    stats1 := fun _ _ _ => { cpu_usec := 1000000, mem_now := 0 } }

/-- A container whose cgroup directory is invisible from the host and whose
in-container exec fallback also fails: no read strategy succeeds. -/
def fsFail : ContainerFS :=
  { cgroupVisible := false, hostRead := fun _ => none, execRead := fun _ => none }

/-- A container readable only through the docker-exec fallback strategy. -/
def fsGood : ContainerFS :=
  { cgroupVisible := false,
    hostRead := fun _ => none,
    execRead := fun p =>
      if p = "/sys/fs/cgroup/cpu.stat" then some "usage_usec 123\nuser_usec 90\nsystem_usec 33"
      else if p = "/sys/fs/cgroup/memory.current" then some "456\n"
      else none }

/-- A container readable directly through the host cgroup filesystem. -/
def fsDirect : ContainerFS :=
  { cgroupVisible := true,
    hostRead := fun p =>
      if p = "cpu.stat" then some "usage_usec 777\nuser_usec 700"
      else if p = "memory.current" then some "888\n"
      else none,
    execRead := fun _ => none }

/-- A docker environment in which every `docker inspect` read fails. -/
def envFail : DockerEnv :=
  { rootFsSize := fun _ => none, mounts := fun _ => none, volSize := fun _ => none }

/-- A graph-catalog mutation statement (from `NEO_NORMAL_QUERIES`, tier
DELETE): shaped as a write, yet executed through `_run_neo_query` like every
other statement. -/
def NEO_DELETE_STMT : String :=
  "MATCH ()-[pur:PURCHASED]-() WHERE pur.id IS NOT NULL WITH pur ORDER BY pur.id LIMIT 1 WITH pur.id AS deleted_purchase_rel_id, pur DELETE pur RETURN deleted_purchase_rel_id;"

theorem runAbort_eq_flatMap {α β : Type} (f : α → List β × Option QueryError)
    (g : α → List β) (l : List α) (h : ∀ a ∈ l, f a = (g a, none)) :
    runAbort f l = (l.flatMap g, none) := by
  induction l with
  | nil => rfl
  | cons a as ih =>
    have ha := h a (List.mem_cons_self a as)
    have ih2 := ih (fun x hx => h x (List.mem_cons_of_mem a hx))
    simp [runAbort, ha, ih2]

theorem runAbort_mem {α β : Type} {f : α → List β × Option QueryError} {l : List α} {r : β}
    (h : r ∈ (runAbort f l).1) : ∃ a, a ∈ l ∧ r ∈ (f a).1 := by
  induction l with
  | nil => simp [runAbort] at h
  | cons a as ih =>
    rcases hfa : f a with ⟨rs, e⟩
    cases e with
    | none =>
      simp only [runAbort, hfa] at h
      rcases hrec : runAbort f as with ⟨rs2, e2⟩
      rw [hrec] at h
      simp only [List.mem_append] at h
      rcases h with h | h
      · exact ⟨a, List.mem_cons_self a as, by rw [hfa]; exact h⟩
      · have h2 : r ∈ (runAbort f as).1 := by rw [hrec]; exact h
        rcases ih h2 with ⟨x, hx, hr⟩
        exact ⟨x, List.mem_cons_of_mem a hx, hr⟩
    | some e0 =>
      simp only [runAbort, hfa] at h
      exact ⟨a, List.mem_cons_self a as, by rw [hfa]; exact h⟩

theorem runAbort_none {α β : Type} {f : α → List β × Option QueryError} {l : List α}
    (h : (runAbort f l).2 = none) : ∀ a ∈ l, (f a).2 = none := by
  induction l with
  | nil => intro a ha; exact absurd ha (List.not_mem_nil a)
  | cons a as ih =>
    intro x hx
    rcases hfa : f a with ⟨rs, e⟩
    cases e with
    | none =>
      rcases List.mem_cons.mp hx with hx | hx
      · subst hx; rw [hfa]
      · apply ih _ x hx
        simp only [runAbort, hfa] at h
        rcases hrec : runAbort f as with ⟨rs2, e2⟩
        rw [hrec] at h
        simpa [hrec] using h
    | some e0 =>
      exfalso
      simp only [runAbort, hfa] at h
      exact Option.noConfusion h

theorem length_range1 (n : ℕ) : (range1 n).length = n := by
  simp [range1]

theorem filter_flatMap {α β : Type} (l : List α) (f : α → List β) (p : β → Bool) :
    (l.flatMap f).filter p = l.flatMap (fun a => (f a).filter p) := by
  induction l with
  | nil => rfl
  | cons a as ih => simp [List.flatMap_cons, List.filter_append, ih]

theorem flatMap_nil_of {α β : Type} {l : List α} {f : α → List β}
    (h : ∀ a ∈ l, f a = []) : l.flatMap f = [] := by
  induction l with
  | nil => rfl
  | cons a as ih =>
    simp [List.flatMap_cons, h a (List.mem_cons_self a as),
      ih (fun x hx => h x (List.mem_cons_of_mem a hx))]

theorem enumFrom_fst_bound {α : Type} {k : ℕ} {l : List α} {p : ℕ × α}
    (h : p ∈ enumFrom k l) : k ≤ p.1 ∧ p.1 < k + l.length := by
  induction l generalizing k with
  | nil => exact absurd h (List.not_mem_nil p)
  | cons a as ih =>
    rcases List.mem_cons.mp h with h | h
    · subst h; simp
    · rcases ih h with ⟨h1, h2⟩
      constructor
      · omega
      · simp only [List.length_cons]
        omega

theorem enumFrom_flatMap_single {α β : Type} {k : ℕ} {l : List α} {i : ℕ} {q : α}
    (G : ℕ × α → List β) (hmem : (i, q) ∈ enumFrom k l)
    (hne : ∀ p ∈ enumFrom k l, p.1 ≠ i → G p = []) :
    (enumFrom k l).flatMap G = G (i, q) := by
  induction l generalizing k with
  | nil => exact absurd hmem (List.not_mem_nil _)
  | cons a as ih =>
    rcases List.mem_cons.mp hmem with h | h
    · have hik : k = i := by
        have := congrArg Prod.fst h.symm; simpa using this
      have hq : a = q := by
        have := congrArg Prod.snd h.symm; simpa using this
      have htail : (enumFrom (k + 1) as).flatMap G = [] := by
        apply flatMap_nil_of
        intro p hp
        have hb : k + 1 ≤ p.1 := (enumFrom_fst_bound hp).1
        refine hne p (List.mem_cons_of_mem _ hp) ?_
        omega
      show ((k, a) :: enumFrom (k + 1) as).flatMap G = G (i, q)
      rw [List.flatMap_cons, htail, List.append_nil, hik, hq]
    · have hb : k + 1 ≤ (i, q).1 := (enumFrom_fst_bound h).1
      have hb2 : k + 1 ≤ i := hb
      have hhead : G (k, a) = [] := by
        refine hne (k, a) (List.mem_cons_self _ _) ?_
        show k ≠ i
        omega
      have htail := ih h (fun p hp hpne => hne p (List.mem_cons_of_mem _ hp) hpne)
      show ((k, a) :: enumFrom (k + 1) as).flatMap G = G (i, q)
      simp [List.flatMap_cons, hhead, htail]

theorem mem_flatMap_single {β : Type} {L : List ℕ} {c : ℕ} (H : ℕ → List β)
    (hnd : L.Nodup) (hc : c ∈ L) (hne : ∀ x ∈ L, x ≠ c → H x = []) :
    L.flatMap H = H c := by
  induction L with
  | nil => exact absurd hc (List.not_mem_nil c)
  | cons a as ih =>
    rcases List.mem_cons.mp hc with h | h
    · have htail : as.flatMap H = [] := by
        apply flatMap_nil_of
        intro x hx
        refine hne x (List.mem_cons_of_mem _ hx) ?_
        intro hxc
        rw [h] at hxc
        rw [hxc] at hx
        exact (List.nodup_cons.mp hnd).1 hx
      rw [h]
      simp [List.flatMap_cons, htail]
    · have hhead : H a = [] := by
        refine hne a (List.mem_cons_self _ _) ?_
        intro hac
        rw [← hac] at h
        exact (List.nodup_cons.mp hnd).1 h
      have htail := ih (List.nodup_cons.mp hnd).2 h
        (fun x hx hxc => hne x (List.mem_cons_of_mem _ hx) hxc)
      simp [List.flatMap_cons, hhead, htail]

theorem flatMap_singleton_map {α β : Type} (l : List α) (g : α → β) :
    (l.flatMap fun x => [g x]) = l.map g := by
  induction l with
  | nil => rfl
  | cons a as ih => simp [List.flatMap_cons, ih]

theorem runWarmups_noFail {ρ : Type} (cfg : BenchCfg ρ) (conc idx : ℕ)
    (comp : Complexity) (stmt : String)
    (h : ∀ w, cfg.warmErr conc idx w = none) :
    runWarmups cfg conc idx comp stmt =
      ((range1 cfg.warmupRuns).map (fun w => warmRow cfg conc idx w comp stmt), none) := by
  unfold runWarmups
  by_cases h0 : 0 < cfg.warmupRuns
  · rw [if_pos h0]
    rw [runAbort_eq_flatMap (warmStep cfg conc idx comp stmt)
        (fun w => [warmRow cfg conc idx w comp stmt])]
    · rw [flatMap_singleton_map]
    · intro a _
      simp [warmStep, h a]
  · rw [if_neg h0]
    have hz : cfg.warmupRuns = 0 := by omega
    simp [hz, range1]

theorem runSteady_noFail {ρ : Type} (cfg : BenchCfg ρ) (conc idx : ℕ)
    (comp : Complexity) (stmt : String)
    (h : ∀ k, cfg.steadyErr conc idx k = none) :
    runSteady cfg conc idx comp stmt =
      ((range1 cfg.repetitions).map (fun k => steadyRowOf cfg conc idx k comp stmt), none) := by
  unfold runSteady
  rw [runAbort_eq_flatMap (steadyStep cfg conc idx comp stmt)
      (fun k => [steadyRowOf cfg conc idx k comp stmt])]
  · rw [flatMap_singleton_map]
  · intro a _
    simp [steadyStep, h a]

theorem runStmt_noFail {ρ : Type} (cfg : BenchCfg ρ) (conc : ℕ)
    (p : ℕ × Complexity × String)
    (h1 : ∀ w, cfg.warmErr conc p.1 w = none)
    (h2 : ∀ k, cfg.steadyErr conc p.1 k = none) :
    runStmt cfg conc p = (stmtRows cfg conc p.1 p.2.1 p.2.2, none) := by
  unfold runStmt
  rw [runWarmups_noFail cfg conc p.1 p.2.1 p.2.2 h1,
    runSteady_noFail cfg conc p.1 p.2.1 p.2.2 h2]
  simp [stmtRows]

theorem runLevel_noFail {ρ : Type} (cfg : BenchCfg ρ) (conc : ℕ)
    (h : NoFail cfg) :
    runLevel cfg conc = (levelRows cfg conc, none) := by
  unfold runLevel levelRows
  rw [runAbort_eq_flatMap (runStmt cfg conc)
      (fun p => stmtRows cfg conc p.1 p.2.1 p.2.2)]
  intro p _
  exact runStmt_noFail cfg conc p (fun w => h.1 conc p.1 w) (fun k => h.2 conc p.1 k)

theorem pgRun_noFail {ρ : Type} (cfg : BenchCfg ρ) (h : NoFail cfg) :
    pgRun cfg = (fullRows cfg, none) := by
  unfold pgRun fullRows
  rw [runAbort_eq_flatMap (runLevel cfg) (levelRows cfg)]
  intro c _
  exact runLevel_noFail cfg c h

theorem runWarmups_mem {ρ : Type} {cfg : BenchCfg ρ} {conc idx : ℕ}
    {comp : Complexity} {stmt : String} {r : Row ρ}
    (h : r ∈ (runWarmups cfg conc idx comp stmt).1) :
    ∃ w, w ∈ range1 cfg.warmupRuns ∧ cfg.warmErr conc idx w = none ∧
      r = warmRow cfg conc idx w comp stmt := by
  unfold runWarmups at h
  by_cases h0 : 0 < cfg.warmupRuns
  · rw [if_pos h0] at h
    rcases runAbort_mem h with ⟨w, hw, hr⟩
    refine ⟨w, hw, ?_⟩
    rcases he : cfg.warmErr conc idx w with _ | e
    · simp [warmStep, he] at hr
      exact ⟨rfl, hr⟩
    · simp [warmStep, he] at hr
  · rw [if_neg h0] at h
    simp at h

theorem runSteady_mem {ρ : Type} {cfg : BenchCfg ρ} {conc idx : ℕ}
    {comp : Complexity} {stmt : String} {r : Row ρ}
    (h : r ∈ (runSteady cfg conc idx comp stmt).1) :
    ∃ k, k ∈ range1 cfg.repetitions ∧ cfg.steadyErr conc idx k = none ∧
      r = steadyRowOf cfg conc idx k comp stmt := by
  unfold runSteady at h
  rcases runAbort_mem h with ⟨k, hk, hr⟩
  refine ⟨k, hk, ?_⟩
  rcases he : cfg.steadyErr conc idx k with _ | e
  · simp [steadyStep, he] at hr
    exact ⟨rfl, hr⟩
  · simp [steadyStep, he] at hr

theorem runStmt_mem {ρ : Type} {cfg : BenchCfg ρ} {conc : ℕ}
    {p : ℕ × Complexity × String} {r : Row ρ}
    (h : r ∈ (runStmt cfg conc p).1) :
    r ∈ (runWarmups cfg conc p.1 p.2.1 p.2.2).1 ∨
      r ∈ (runSteady cfg conc p.1 p.2.1 p.2.2).1 := by
  unfold runStmt at h
  rcases hw : runWarmups cfg conc p.1 p.2.1 p.2.2 with ⟨wrs, we⟩
  rw [hw] at h
  cases we with
  | none =>
    rcases hs : runSteady cfg conc p.1 p.2.1 p.2.2 with ⟨srs, se⟩
    rw [hs] at h
    have h2 : r ∈ wrs ++ srs := h
    rcases List.mem_append.mp h2 with h3 | h3
    · exact Or.inl h3
    · exact Or.inr h3
  | some e =>
    have h2 : r ∈ wrs := h
    exact Or.inl h2

theorem pgRun_mem_shape {ρ : Type} {cfg : BenchCfg ρ} {r : Row ρ}
    (h : r ∈ (pgRun cfg).1) :
    (∃ c p w, c ∈ CONCURRENCY_LEVELS ∧ p ∈ enumFrom 1 cfg.catalog ∧
        w ∈ range1 cfg.warmupRuns ∧ cfg.warmErr c p.1 w = none ∧
        r = warmRow cfg c p.1 w p.2.1 p.2.2) ∨
    (∃ c p k, c ∈ CONCURRENCY_LEVELS ∧ p ∈ enumFrom 1 cfg.catalog ∧
        k ∈ range1 cfg.repetitions ∧ cfg.steadyErr c p.1 k = none ∧
        r = steadyRowOf cfg c p.1 k p.2.1 p.2.2) := by
  rcases runAbort_mem h with ⟨c, hc, hr⟩
  rcases runAbort_mem hr with ⟨p, hp, hr2⟩
  rcases runStmt_mem hr2 with h3 | h3
  · rcases runWarmups_mem h3 with ⟨w, hw, he, hrw⟩
    exact Or.inl ⟨c, p, w, hc, hp, hw, he, hrw⟩
  · rcases runSteady_mem h3 with ⟨k, hk, he, hrk⟩
    exact Or.inr ⟨c, p, k, hc, hp, hk, he, hrk⟩

theorem steady_mem_noErr {ρ : Type} {cfg : BenchCfg ρ} {r : Row ρ}
    (h : r ∈ (pgRun cfg).1) (hs : r.phase = "steady") :
    cfg.steadyErr r.conc r.query_no r.rep = none := by
  rcases pgRun_mem_shape h with ⟨c, p, w, _, _, _, _, hr⟩ | ⟨c, p, k, _, _, _, he, hr⟩
  · rw [hr] at hs
    simp [warmRow] at hs
  · rw [hr]
    exact he

theorem runStmt_snd_none {ρ : Type} {cfg : BenchCfg ρ} {conc : ℕ}
    {p : ℕ × Complexity × String}
    (h : (runStmt cfg conc p).2 = none) :
    (runSteady cfg conc p.1 p.2.1 p.2.2).2 = none := by
  unfold runStmt at h
  rcases hw : runWarmups cfg conc p.1 p.2.1 p.2.2 with ⟨wrs, we⟩
  rw [hw] at h
  cases we with
  | none =>
    rcases hs : runSteady cfg conc p.1 p.2.1 p.2.2 with ⟨srs, se⟩
    rw [hs] at h
    have h2 : se = none := h
    exact h2
  | some e =>
    exact absurd (show some e = none from h) (by simp)

theorem pgRun_none_steadyErr {ρ : Type} {cfg : BenchCfg ρ}
    (h : (pgRun cfg).2 = none) :
    ∀ c ∈ CONCURRENCY_LEVELS, ∀ p ∈ enumFrom 1 cfg.catalog,
      ∀ k ∈ range1 cfg.repetitions, cfg.steadyErr c p.1 k = none := by
  intro c hc p hp k hk
  have h1 : (runLevel cfg c).2 = none := runAbort_none h c hc
  have h2 : (runStmt cfg c p).2 = none := runAbort_none h1 p hp
  have h3 : (runSteady cfg c p.1 p.2.1 p.2.2).2 = none := runStmt_snd_none h2
  have h4 : (steadyStep cfg c p.1 p.2.1 p.2.2 k).2 = none := runAbort_none h3 k hk
  rcases he : cfg.steadyErr c p.1 k with _ | e
  · rfl
  · exfalso
    simp [steadyStep, he] at h4

theorem mem_stmtRows_fields {ρ : Type} {cfg : BenchCfg ρ} {conc idx : ℕ}
    {comp : Complexity} {stmt : String} {r : Row ρ}
    (h : r ∈ stmtRows cfg conc idx comp stmt) :
    r.conc = conc ∧ r.query_no = idx := by
  rcases List.mem_append.mp h with h | h <;>
    rcases List.mem_map.mp h with ⟨w, hw, rfl⟩ <;> exact ⟨rfl, rfl⟩

theorem mem_levelRows_conc {ρ : Type} {cfg : BenchCfg ρ} {conc : ℕ} {r : Row ρ}
    (h : r ∈ levelRows cfg conc) : r.conc = conc := by
  rcases List.mem_flatMap.mp h with ⟨p, hp, hr⟩
  exact (mem_stmtRows_fields hr).1

theorem filter_map_eq {α β : Type} (l : List α) (f : α → β) (p : β → Bool) :
    (l.map f).filter p = (l.filter (fun x => p (f x))).map f := by
  induction l with
  | nil => rfl
  | cons a as ih => by_cases h : p (f a) = true <;> simp [List.filter_cons, h, ih]

theorem map_const_replicate {α : Type} (l : List α) (c : ℕ) :
    l.map (fun _ => c) = List.replicate l.length c := by
  induction l with
  | nil => rfl
  | cons a as ih => simp [List.replicate_succ, ih]

theorem pairwise_replicate_le (n a : ℕ) : List.Pairwise (· ≤ ·) (List.replicate n a) := by
  induction n with
  | zero => exact List.Pairwise.nil
  | succ n ih =>
    rw [List.replicate_succ]
    exact List.Pairwise.cons (fun b hb => le_of_eq (List.eq_of_mem_replicate hb).symm) ih

theorem pairwise_flatMap_replicate {m : ℕ} {L : List ℕ}
    (hL : List.Pairwise (· ≤ ·) L) :
    List.Pairwise (· ≤ ·) (L.flatMap fun c => List.replicate m c) := by
  induction L with
  | nil => exact List.Pairwise.nil
  | cons a as ih =>
    rw [List.flatMap_cons, List.pairwise_append]
    refine ⟨pairwise_replicate_le m a, ih (List.pairwise_cons.mp hL).2, ?_⟩
    intro x hx y hy
    have hxa : x = a := List.eq_of_mem_replicate hx
    rcases List.mem_flatMap.mp hy with ⟨c, hcmem, hyrep⟩
    have hyc : y = c := List.eq_of_mem_replicate hyrep
    rw [hxa, hyc]
    exact (List.pairwise_cons.mp hL).1 c hcmem

theorem flatMap_congr {α β : Type} {l : List α} {f g : α → List β}
    (h : ∀ a ∈ l, f a = g a) : l.flatMap f = l.flatMap g := by
  induction l with
  | nil => rfl
  | cons a as ih =>
    rw [List.flatMap_cons, List.flatMap_cons, h a (List.mem_cons_self a as),
      ih (fun x hx => h x (List.mem_cons_of_mem a hx))]

theorem map_flatMap {α β γ : Type} (l : List α) (f : α → List β) (g : β → γ) :
    (l.flatMap f).map g = l.flatMap (fun a => (f a).map g) := by
  induction l with
  | nil => rfl
  | cons a as ih => simp [List.flatMap_cons, ih]

theorem stmtRows_filter_pair_self {ρ : Type} (cfg : BenchCfg ρ) (c i : ℕ)
    (cm : Complexity) (st : String) :
    (stmtRows cfg c i cm st).filter (fun r => r.conc = c ∧ r.query_no = i)
      = stmtRows cfg c i cm st := by
  rw [List.filter_eq_self]
  intro r hr
  rcases mem_stmtRows_fields hr with ⟨h1, h2⟩
  simp [h1, h2]

theorem stmtRows_filter_pair_nil {ρ : Type} (cfg : BenchCfg ρ) (c i c2 j : ℕ)
    (cm : Complexity) (st : String) (hne : c2 ≠ c ∨ j ≠ i) :
    (stmtRows cfg c2 j cm st).filter (fun r => r.conc = c ∧ r.query_no = i) = [] := by
  rw [List.filter_eq_nil_iff]
  intro r hr
  rcases mem_stmtRows_fields hr with ⟨h1, h2⟩
  simp [h1, h2]
  intro hc
  rcases hne with hne | hne
  · exact absurd hc hne
  · exact hne

theorem levelRows_filter_pair {ρ : Type} (cfg : BenchCfg ρ) (c i : ℕ)
    (q : Complexity × String) (hp : (i, q) ∈ enumFrom 1 cfg.catalog) :
    (levelRows cfg c).filter (fun r => r.conc = c ∧ r.query_no = i)
      = stmtRows cfg c i q.1 q.2 := by
  unfold levelRows
  rw [filter_flatMap]
  rw [enumFrom_flatMap_single
      (fun p => (stmtRows cfg c p.1 p.2.1 p.2.2).filter
        (fun r => r.conc = c ∧ r.query_no = i)) hp
      (fun p _ hpi => stmtRows_filter_pair_nil cfg c i c p.1 p.2.1 p.2.2 (Or.inr hpi))]
  exact stmtRows_filter_pair_self cfg c i q.1 q.2

theorem fullRows_filter_pair {ρ : Type} (cfg : BenchCfg ρ) (c i : ℕ)
    (q : Complexity × String) (hc : c ∈ CONCURRENCY_LEVELS)
    (hp : (i, q) ∈ enumFrom 1 cfg.catalog) :
    (fullRows cfg).filter (fun r => r.conc = c ∧ r.query_no = i)
      = stmtRows cfg c i q.1 q.2 := by
  unfold fullRows
  rw [filter_flatMap]
  rw [mem_flatMap_single
      (fun c2 => (levelRows cfg c2).filter (fun r => r.conc = c ∧ r.query_no = i))
      (by decide) hc ?hne]
  · exact levelRows_filter_pair cfg c i q hp
  case hne =>
    intro c2 _ hc2
    rw [List.filter_eq_nil_iff]
    intro r hr
    have hrc := mem_levelRows_conc hr
    simp [hrc]
    intro hcc
    exact absurd hcc hc2

theorem stmtRows_filter_qno_self {ρ : Type} (cfg : BenchCfg ρ) (c2 i : ℕ)
    (cm : Complexity) (st : String) :
    (stmtRows cfg c2 i cm st).filter (fun r => r.query_no = i)
      = stmtRows cfg c2 i cm st := by
  rw [List.filter_eq_self]
  intro r hr
  simp [(mem_stmtRows_fields hr).2]

theorem stmtRows_filter_qno_nil {ρ : Type} (cfg : BenchCfg ρ) (c2 j i : ℕ)
    (cm : Complexity) (st : String) (hne : j ≠ i) :
    (stmtRows cfg c2 j cm st).filter (fun r => r.query_no = i) = [] := by
  rw [List.filter_eq_nil_iff]
  intro r hr
  simp [(mem_stmtRows_fields hr).2]
  exact hne

theorem levelRows_filter_qno {ρ : Type} (cfg : BenchCfg ρ) (c2 i : ℕ)
    (q : Complexity × String) (hp : (i, q) ∈ enumFrom 1 cfg.catalog) :
    (levelRows cfg c2).filter (fun r => r.query_no = i)
      = stmtRows cfg c2 i q.1 q.2 := by
  unfold levelRows
  rw [filter_flatMap]
  rw [enumFrom_flatMap_single
      (fun p => (stmtRows cfg c2 p.1 p.2.1 p.2.2).filter (fun r => r.query_no = i)) hp
      (fun p _ hpi => stmtRows_filter_qno_nil cfg c2 p.1 i p.2.1 p.2.2 hpi)]
  exact stmtRows_filter_qno_self cfg c2 i q.1 q.2

theorem fullRows_filter_qno {ρ : Type} (cfg : BenchCfg ρ) (i : ℕ)
    (q : Complexity × String) (hp : (i, q) ∈ enumFrom 1 cfg.catalog) :
    (fullRows cfg).filter (fun r => r.query_no = i)
      = CONCURRENCY_LEVELS.flatMap (fun c => stmtRows cfg c i q.1 q.2) := by
  unfold fullRows
  rw [filter_flatMap]
  exact flatMap_congr (fun c _ => levelRows_filter_qno cfg c i q hp)

theorem stmtRows_length {ρ : Type} (cfg : BenchCfg ρ) (c i : ℕ)
    (cm : Complexity) (st : String) :
    (stmtRows cfg c i cm st).length = cfg.warmupRuns + cfg.repetitions := by
  simp [stmtRows, range1]

theorem stmtRows_filter_warm_length {ρ : Type} (cfg : BenchCfg ρ) (c i : ℕ)
    (cm : Complexity) (st : String) :
    ((stmtRows cfg c i cm st).filter (fun r => r.phase = "warmup")).length
      = cfg.warmupRuns := by
  unfold stmtRows
  rw [List.filter_append, filter_map_eq, filter_map_eq]
  simp [warmRow, steadyRowOf, range1]

theorem stmtRows_filter_steady_length {ρ : Type} (cfg : BenchCfg ρ) (c i : ℕ)
    (cm : Complexity) (st : String) :
    ((stmtRows cfg c i cm st).filter (fun r => r.phase = "steady")).length
      = cfg.repetitions := by
  unfold stmtRows
  rw [List.filter_append, filter_map_eq, filter_map_eq]
  simp [warmRow, steadyRowOf, range1]

theorem stmtRows_map_conc {ρ : Type} (cfg : BenchCfg ρ) (c i : ℕ)
    (cm : Complexity) (st : String) :
    (stmtRows cfg c i cm st).map (fun r => r.conc)
      = List.replicate (cfg.warmupRuns + cfg.repetitions) c := by
  unfold stmtRows
  rw [List.map_append, List.map_map, List.map_map]
  have h1 : ((fun r : Row ρ => r.conc) ∘ fun w => warmRow cfg c i w cm st) = fun _ => c := rfl
  have h2 : ((fun r : Row ρ => r.conc) ∘ fun k => steadyRowOf cfg c i k cm st) = fun _ => c := rfl
  rw [h1, h2, map_const_replicate, map_const_replicate, length_range1, length_range1,
    List.replicate_add]

theorem pool_capacity_covers_levels : ∀ c ∈ CONCURRENCY_LEVELS, c ≤ PG_POOL_maxconn := by
  decide

/-- Claim C1 (amended): a QueryError raised during a steady repetition is not
caught anywhere in the benchmark loop — the failing repetition is never
logged (every logged steady record belongs to a repetition whose batch
returned without error), and the run itself ends with the error: the
exception propagates past the current statement and aborts the remaining
statements and concurrency levels instead of continuing. -/
theorem steady_query_error_aborts_run {ρ : Type} (cfg : BenchCfg ρ) (c k : ℕ)
    (p : ℕ × Complexity × String) (e : QueryError)
    (hc : c ∈ CONCURRENCY_LEVELS) (hp : p ∈ enumFrom 1 cfg.catalog)
    (hk : k ∈ range1 cfg.repetitions)
    (he : cfg.steadyErr c p.1 k = some e) :
    (pgRun cfg).2 ≠ none ∧
      ∀ r ∈ (pgRun cfg).1, r.phase = "steady" →
        cfg.steadyErr r.conc r.query_no r.rep = none := by
  constructor
  · intro hnone
    have hall := pgRun_none_steadyErr hnone c hc p hp k hk
    rw [he] at hall
    exact Option.noConfusion hall
  · intro r hr hphase
    exact steady_mem_noErr hr hphase

/-- Counterexample to claim C1 as stated: in `cfgFail` the first steady
repetition of statement 1 raises; the emitted stream is empty — no
error-marker record is logged, and although statement 2 exists in the
catalog no record for it is ever produced (the Orchestrator does not
continue with the next statement) — and the error leaves `pgRun` itself,
aborting the whole run. -/
theorem steady_query_error_cex :
    pgRun cfgFail = ([], some { msg := "relation missing" }) ∧
    (2, (Complexity.DELETE, "DELETE FROM t;")) ∈ enumFrom 1 cfgFail.catalog ∧
    ((pgRun cfgFail).1.filter (fun r => r.query_no = 2)) = [] := by
  refine ⟨by decide, by decide, by decide⟩

/-- Witness for the C1 theorem at the concrete failing configuration. -/
theorem steady_query_error_aborts_run_witness :
    cfgFail.steadyErr 1 1 1 = some { msg := "relation missing" } ∧
      (pgRun cfgFail).2 ≠ none :=
  ⟨by decide,
    (steady_query_error_aborts_run cfgFail 1 1 (1, (Complexity.SIMPLE, "SELECT 1;"))
      { msg := "relation missing" } (by decide) (by decide) (by decide) (by decide)).1⟩

/-- Claim C2 (amended): every emitted record follows the fixed 14-column
order db, mode, phase, concurrency (conc), query_no, repeat (rep),
complexity, duration_ms, qps, avg_cpu, avg_mem, disk_mb, statement, result
of CSV_HEADER; no per_request_ms column exists and no per-request metric is
derived. -/
theorem record_schema_fixed {ρ : Type} (cfg : BenchCfg ρ) (r : Row ρ)
    (h : r ∈ (pgRun cfg).1) :
    rowCells r = [Cell.str r.db, Cell.str r.mode, Cell.str r.phase, Cell.nat r.conc,
      Cell.nat r.query_no, Cell.nat r.rep, Cell.str r.complexity.value,
      Cell.rat r.duration_ms, Cell.flt r.qps, Cell.flt r.avg_cpu, Cell.flt r.avg_mem,
      Cell.flt r.disk_mb, Cell.str r.statement, Cell.res r.result] ∧
    (rowCells r).length = CSV_HEADER.length ∧ "per_request_ms" ∉ CSV_HEADER :=
  ⟨rfl, rfl, by decide⟩

/-- Counterexample to claim C2 as stated: the header has 14 columns, not the
15 columns of the specification's schema, and in particular carries no
per_request_ms column. -/
theorem csv_header_no_per_request_ms :
    "per_request_ms" ∉ CSV_HEADER ∧ CSV_HEADER ≠ CSV_HEADER_claim ∧
      CSV_HEADER.length = 14 ∧ CSV_HEADER_claim.length = 15 := by
  decide

/-- Witness for the C2 theorem: the first record of the concrete run. -/
theorem record_schema_fixed_witness :
    warmRow cfgOk 1 1 1 Complexity.SIMPLE "SELECT 1;" ∈ (pgRun cfgOk).1 ∧
      "per_request_ms" ∉ CSV_HEADER := by
  have hm : warmRow cfgOk 1 1 1 Complexity.SIMPLE "SELECT 1;" ∈ (pgRun cfgOk).1 :=
    List.mem_cons_self _ _
  exact ⟨hm, (record_schema_fixed cfgOk _ hm).2.2⟩

/-- Claim C3 (amended): only the disk sampler degrades gracefully — when no
docker-inspect source is readable, get_docker_disk_mb returns the NaN
sentinel and every record still has the fixed-width CSV_HEADER shape; the
cgroup sampler, by contrast, raises when no read strategy succeeds (its
result is an error, not a NaN-defaulted snapshot), and nothing in the
benchmark loop catches that exception. -/
theorem disk_nan_but_cgroup_raises {ρ : Type} (env : DockerEnv) (cont : String)
    (fs : ContainerFS)
    (h1 : env.rootFsSize cont = none) (h2 : env.mounts cont = none)
    (h3 : read_file fs "cpu.stat" = none) :
    get_docker_disk_mb env cont = PyFloat.nan ∧
    read_cgroup_stats fs = Except.error "cpu.stat unreadable" ∧
    ∀ r : Row ρ, (rowCells r).length = CSV_HEADER.length := by
  refine ⟨?_, ?_, fun r => rfl⟩
  · unfold get_docker_disk_mb
    rw [h1, h2]
    norm_num
  · unfold read_cgroup_stats
    rw [h3]

/-- Counterexample to claim C3 as stated: when no read strategy of the
cgroup sampler succeeds, the sampler raises — it produces an error value,
never a snapshot with NaN fields — so the failure does abort whatever is
running it. -/
theorem cgroup_sampler_raises_cex :
    read_cgroup_stats fsFail = Except.error "cpu.stat unreadable" ∧
      (∀ d, read_cgroup_stats fsFail ≠ Except.ok d) := by
  refine ⟨rfl, fun d h => ?_⟩
  rw [show read_cgroup_stats fsFail = Except.error "cpu.stat unreadable" from rfl] at h
  exact Except.noConfusion h

/-- Witness for the C3 theorem at the all-failing environment. -/
theorem disk_nan_but_cgroup_raises_witness :
    envFail.rootFsSize "pg_test_normal" = none ∧
      get_docker_disk_mb envFail "pg_test_normal" = PyFloat.nan :=
  ⟨rfl, (disk_nan_but_cgroup_raises (ρ := ℕ) envFail "pg_test_normal" fsFail rfl rfl rfl).1⟩

/-- Claim C4 (amended): a successful snapshot of the sampler carries exactly
cumulative CPU time (usage_usec of cpu.stat) and resident memory
(memory.current) — no block-I/O and no network fields — and the direct
cgroup-file strategy and the in-container exec fallback both produce this
one identical field shape. -/
theorem snapshot_field_shape (fs : ContainerFS) (d : List (String × Int))
    (h : read_cgroup_stats fs = Except.ok d) :
    d.map Prod.fst = ["cpu_usec", "mem_now"] := by
  unfold read_cgroup_stats at h
  split at h
  · exact Except.noConfusion h
  · split at h
    · exact Except.noConfusion h
    · split at h
      · exact Except.noConfusion h
      · split at h
        · exact Except.noConfusion h
        · injection h with h2
          rw [← h2]
          rfl

/-- Counterexample to claim C4 as stated: a successful snapshot (here via
the exec fallback) has exactly the keys cpu_usec and mem_now; it carries no
io_read_bytes, io_write_bytes, net_rx_bytes or net_tx_bytes field. -/
theorem snapshot_no_io_net_cex :
    read_cgroup_stats fsGood = Except.ok [("cpu_usec", 123), ("mem_now", 456)] ∧
    "io_read_bytes" ∉ ([("cpu_usec", (123 : Int)), ("mem_now", 456)].map Prod.fst) ∧
    "net_rx_bytes" ∉ ([("cpu_usec", (123 : Int)), ("mem_now", 456)].map Prod.fst) := by
  refine ⟨rfl, by decide, by decide⟩

/-- Witness for the C4 theorem, applied once per read strategy: the exec
fallback snapshot and the direct host-read snapshot have the same shape. -/
theorem snapshot_field_shape_witness :
    read_cgroup_stats fsDirect = Except.ok [("cpu_usec", 777), ("mem_now", 888)] ∧
    ([("cpu_usec", (777 : Int)), ("mem_now", 888)].map Prod.fst = ["cpu_usec", "mem_now"]) ∧
    ([("cpu_usec", (123 : Int)), ("mem_now", 456)].map Prod.fst = ["cpu_usec", "mem_now"]) :=
  ⟨rfl, snapshot_field_shape fsDirect _ rfl, snapshot_field_shape fsGood _ rfl⟩

/-- Claim C5 (amended): delta is plain field-wise subtraction with no
clamping: for any two snapshots it returns one entry per key of the first
snapshot whose value is after-minus-before, and all resulting fields are
≥ 0 exactly when no counter decreased between the snapshots — which holds
for monotonic cumulative counters, but a decreasing (noisy) field produces
a negative delta, not a saturated 0. -/
theorem delta_subtraction_nonneg (before after d : List (String × Int))
    (hd : delta before after = some d)
    (hmono : ∀ kv ∈ before, ∀ v, dictGet? after kv.1 = some v → kv.2 ≤ v) :
    d.length = before.length ∧ ∀ kv ∈ d, 0 ≤ kv.2 := by
  induction before generalizing d with
  | nil =>
    unfold delta at hd
    injection hd with hd
    rw [← hd]
    exact ⟨rfl, by intro kv hkv; exact absurd hkv (List.not_mem_nil kv)⟩
  | cons kv rest ih =>
    unfold delta at hd
    rcases hg : dictGet? after kv.1 with _ | v
    · rw [hg] at hd
      exact Option.noConfusion hd
    · rw [hg] at hd
      rcases hrec : delta rest after with _ | ds
      · rw [hrec] at hd
        exact Option.noConfusion hd
      · rw [hrec] at hd
        injection hd with hd
        rcases ih ds hrec
            (fun kv2 hk v2 hv2 => hmono kv2 (List.mem_cons_of_mem _ hk) v2 hv2)
          with ⟨hlen, hpos⟩
        rw [← hd]
        constructor
        · simp [hlen]
        · intro kv2 hk
          rcases List.mem_cons.mp hk with hk | hk
          · rw [hk]
            have hle := hmono kv (List.mem_cons_self _ _) v hg
            simp
            omega
          · exact hpos kv2 hk

/-- Counterexample to claim C5 as stated: a pair of snapshots whose
cpu_usec counter went backwards (a monotonically noisy source) yields a
delta field of -6 — strictly negative, not saturated at 0. -/
theorem delta_negative_cex :
    delta [("cpu_usec", 10), ("mem_now", 7)] [("cpu_usec", 4), ("mem_now", 7)]
      = some [("cpu_usec", -6), ("mem_now", 0)] ∧ ((-6 : Int) < 0) := by
  refine ⟨by decide, by decide⟩

/-- Witness for the C5 theorem at a concrete monotone snapshot pair. -/
theorem delta_subtraction_nonneg_witness :
    delta [("cpu_usec", 3), ("mem_now", 5)] [("cpu_usec", 10), ("mem_now", 5)]
      = some [("cpu_usec", 7), ("mem_now", 0)] ∧
    (∀ kv ∈ [("cpu_usec", (7 : Int)), ("mem_now", 0)], 0 ≤ kv.2) := by
  have hmono : ∀ kv ∈ [("cpu_usec", (3 : Int)), ("mem_now", 5)], ∀ v,
      dictGet? [("cpu_usec", 10), ("mem_now", 5)] kv.1 = some v → kv.2 ≤ v := by
    intro kv hkv v hv
    rcases List.mem_cons.mp hkv with hk | hk
    · rw [hk] at hv ⊢
      have h10 : (10 : Int) = v := Option.some.inj hv
      omega
    · rcases List.mem_cons.mp hk with hk | hk
      · rw [hk] at hv ⊢
        have h5 : (5 : Int) = v := Option.some.inj hv
        omega
      · exact absurd hk (List.not_mem_nil kv)
  exact ⟨by decide,
    (delta_subtraction_nonneg [("cpu_usec", 3), ("mem_now", 5)]
      [("cpu_usec", 10), ("mem_now", 5)] [("cpu_usec", 7), ("mem_now", 0)]
      (by decide) hmono).2⟩

/-- Claim C6 (amended): every steady record's avg_cpu equals
(delta cpu_usec / 1e6) / (duration_ms/1000 * cores) * 100 with cores the
module-level CPU_CORES — the host's core count from
multiprocessing.cpu_count(), resolved once at import and shared by every
container — not a per-container count resolved by an in-container command;
the value can exceed 100. -/
theorem steady_avg_cpu_host_cores {ρ : Type} (cfg : BenchCfg ρ) (r : Row ρ)
    (h : r ∈ (pgRun cfg).1) (hs : r.phase = "steady") :
    r.avg_cpu = PyFloat.val (avgCpuPct cfg.cpuCores
      ((cfg.stats1 r.conc r.query_no r.rep).cpu_usec
        - (cfg.stats0 r.conc r.query_no r.rep).cpu_usec)
      (cfg.steadyMs r.conc r.query_no r.rep)) := by
  rcases pgRun_mem_shape h with ⟨c, p, w, _, _, _, _, hr⟩ | ⟨c, p, k, _, _, _, _, hr⟩
  · rw [hr] at hs
    simp [warmRow] at hs
  · rw [hr]
    rfl

/-- Counterexample to claim C6 as stated: the host has 4 cores while the
hypothetical benchmarked container is limited to containerCores_claim = 2;
during a 1000 ms steady batch with 1 s of CPU delta the logged record
carries the host-cores value 25, whereas the claim's per-container formula
demands 50. -/
theorem avg_cpu_not_container_cores_cex :
    ((pgRun cfgC6).1.head?.map (fun r => r.avg_cpu))
        = some (PyFloat.val (avgCpuPct cfgC6.cpuCores 1000000 1000)) ∧
    avgCpuPct cfgC6.cpuCores 1000000 1000 = 25 ∧
    avgCpuPct containerCores_claim 1000000 1000 = 50 ∧
    (25 : ℚ) ≠ 50 := by
  refine ⟨rfl, ?_, ?_, by norm_num⟩
  · show avgCpuPct 4 1000000 1000 = 25
    norm_num [avgCpuPct]
  · show avgCpuPct 2 1000000 1000 = 50
    norm_num [avgCpuPct]

/-- Witness for the C6 theorem: the first steady record of the concrete
run; its avg_cpu is 50 because 2 s of CPU delta were burned during a
1000 ms batch on the 4-core host. -/
theorem steady_avg_cpu_host_cores_witness :
    steadyRowOf cfgOk 1 1 1 Complexity.SIMPLE "SELECT 1;" ∈ (pgRun cfgOk).1 ∧
    (steadyRowOf cfgOk 1 1 1 Complexity.SIMPLE "SELECT 1;").avg_cpu
      = PyFloat.val (avgCpuPct 4 2000000 1000) ∧
    avgCpuPct 4 2000000 1000 = 50 := by
  have hm : steadyRowOf cfgOk 1 1 1 Complexity.SIMPLE "SELECT 1;" ∈ (pgRun cfgOk).1 :=
    List.mem_cons_of_mem _ (List.mem_cons_self _ _)
  refine ⟨hm, steady_avg_cpu_host_cores cfgOk _ hm rfl, ?_⟩
  norm_num [avgCpuPct]

/-- Claim C7 (amended): the relational executor preserves the read/write
asymmetry — a statement whose cursor has a description (SELECT-shaped)
serializes to the rows/first keys only, and any other statement to the
rowcount key only — but the graph executor returns the rows/first shape
for every statement, mutation-shaped ones included; a mutation-counter
outcome never occurs on the graph path. -/
theorem outcome_shape_by_backend (ρ : Type) :
    (∀ (descr : Bool) (rows : List ρ) (rc : Int),
      pgResultKeys (serialize_pg ρ descr rows rc)
        = if descr then ["rows", "first"] else ["rowcount"]) ∧
    (∀ records : List ρ, neoResKeys ρ (run_neo_query ρ records) = ["rows", "first"]) := by
  constructor
  · intro descr rows rc
    cases descr <;> rfl
  · intro records
    rfl

/-- Counterexample to claim C7 as stated: running the mutation-shaped graph
statement NEO_DELETE_STMT (a DELETE ... RETURN, yielding no record here)
through the graph executor produces the rows/first shape — not a
rows_affected or node-counter outcome, which the executor can never emit. -/
theorem neo_mutation_outcome_cex :
    run_neo_query ℕ ([] : List ℕ) = NeoRes.mk 0 none ∧
    neoResKeys ℕ (run_neo_query ℕ []) = ["rows", "first"] ∧
    "rows_affected" ∉ neoResKeys ℕ (run_neo_query ℕ []) ∧
    NEO_DELETE_STMT ≠ "" := by
  refine ⟨rfl, rfl, by decide, by decide⟩

/-- Claim C9: in an exception-free run, every (concurrency level, statement)
pair of the fixed level sequence and the catalog emits exactly
warmup_count + repetition_count records, of which exactly warmup_count carry
phase=warmup and exactly repetition_count carry phase=steady (so
warmup_count = 0 yields no warm-up records). -/
theorem records_per_pair_count {ρ : Type} (cfg : BenchCfg ρ) (c i : ℕ)
    (q : Complexity × String) (hnf : NoFail cfg)
    (hc : c ∈ CONCURRENCY_LEVELS) (hp : (i, q) ∈ enumFrom 1 cfg.catalog) :
    (((pgRun cfg).1.filter (fun r => r.conc = c ∧ r.query_no = i)).length
        = cfg.warmupRuns + cfg.repetitions) ∧
    ((((pgRun cfg).1.filter (fun r => r.conc = c ∧ r.query_no = i)).filter
        (fun r => r.phase = "warmup")).length = cfg.warmupRuns) ∧
    ((((pgRun cfg).1.filter (fun r => r.conc = c ∧ r.query_no = i)).filter
        (fun r => r.phase = "steady")).length = cfg.repetitions) := by
  have hrows : (pgRun cfg).1 = fullRows cfg := by rw [pgRun_noFail cfg hnf]
  have hpair := fullRows_filter_pair cfg c i q hc hp
  refine ⟨?_, ?_, ?_⟩
  · rw [hrows, hpair, stmtRows_length]
  · rw [hrows, hpair, stmtRows_filter_warm_length]
  · rw [hrows, hpair, stmtRows_filter_steady_length]

/-- Witness for the C9 theorem: level 3 with statement 2 of the concrete
run emits 1 + 2 = 3 records. -/
theorem records_per_pair_count_witness :
    (3 ∈ CONCURRENCY_LEVELS) ∧
    ((2, (Complexity.DELETE, "DELETE FROM t;")) ∈ enumFrom 1 cfgOk.catalog) ∧
    (((pgRun cfgOk).1.filter (fun r => r.conc = 3 ∧ r.query_no = 2)).length = 3) := by
  refine ⟨by decide, by decide, ?_⟩
  exact (records_per_pair_count cfgOk 3 2 (Complexity.DELETE, "DELETE FROM t;")
    ⟨fun _ _ _ => rfl, fun _ _ _ => rfl⟩ (by decide) (by decide)).1

/-- Claim C10: in an exception-free run the outer iteration order is
concurrency level in the fixed sequence, then statement in catalog order,
then repetition: the per-statement concurrency trace equals each level of
CONCURRENCY_LEVELS repeated warmup_count + repetition_count times in
sequence order, the fixed sequence is strictly ascending, and hence every
statement sees its concurrency levels tried in ascending order. -/
theorem iteration_order_ascending {ρ : Type} (cfg : BenchCfg ρ) (i : ℕ)
    (q : Complexity × String) (hnf : NoFail cfg)
    (hp : (i, q) ∈ enumFrom 1 cfg.catalog) :
    (((pgRun cfg).1.filter (fun r => r.query_no = i)).map (fun r => r.conc)
        = CONCURRENCY_LEVELS.flatMap
            (fun c => List.replicate (cfg.warmupRuns + cfg.repetitions) c)) ∧
    List.Pairwise (· < ·) CONCURRENCY_LEVELS ∧
    List.Pairwise (· ≤ ·)
      (((pgRun cfg).1.filter (fun r => r.query_no = i)).map (fun r => r.conc)) := by
  have hrows : (pgRun cfg).1 = fullRows cfg := by rw [pgRun_noFail cfg hnf]
  have htr : ((pgRun cfg).1.filter (fun r => r.query_no = i)).map (fun r => r.conc)
      = CONCURRENCY_LEVELS.flatMap
          (fun c => List.replicate (cfg.warmupRuns + cfg.repetitions) c) := by
    rw [hrows, fullRows_filter_qno cfg i q hp, map_flatMap]
    exact flatMap_congr (fun c _ => stmtRows_map_conc cfg c i q.1 q.2)
  refine ⟨htr, by decide, ?_⟩
  rw [htr]
  exact pairwise_flatMap_replicate (by decide)

/-- Witness for the C10 theorem: statement 1 of the concrete run sees the
concurrency trace 1,1,1,3,3,3,5,5,5,10,10,10. -/
theorem iteration_order_ascending_witness :
    ((1, (Complexity.SIMPLE, "SELECT 1;")) ∈ enumFrom 1 cfgOk.catalog) ∧
    (((pgRun cfgOk).1.filter (fun r => r.query_no = 1)).map (fun r => r.conc)
      = [1, 1, 1, 3, 3, 3, 5, 5, 5, 10, 10, 10]) := by
  refine ⟨by decide, ?_⟩
  have h := iteration_order_ascending cfgOk 1 (Complexity.SIMPLE, "SELECT 1;")
    ⟨fun _ _ _ => rfl, fun _ _ _ => rfl⟩ (by decide)
  rw [h.1]
  decide

end Bench
